import Mathlib

/-!
Shallow embedding of the core pipeline of the BirdNET MQTT Stream Deck
plugin: payload normalization, rolling detection counter, rarity
classification, daily species aggregation, rotation scheduling and the
image fetch cache.  JavaScript numbers are modelled as exact rationals
(the pipeline only compares, takes minima and multiplies small decimals,
so no double rounding is observable in the verified properties); the
JavaScript undefined value is modelled as `Option.none` and null as an
explicit JSON null constructor.
-/

/-- JSON values as produced by JSON.parse.  Object fields are listed in
document order; JSON.parse keeps the last duplicate key, so field lists are
assumed duplicate free (which JSON.parse guarantees for its output). -/
inductive JsonVal where
  | jnull : JsonVal
  | jbool : Bool → JsonVal
  | jnum : ℚ → JsonVal
  | jstr : String → JsonVal
  | jarr : List JsonVal → JsonVal
  | jobj : List (String × JsonVal) → JsonVal

/-- Model of JavaScript String.prototype.trim, written over the character
list so that it evaluates by kernel reduction. -/
def jsTrim (s : String) : String :=
  String.mk (((s.toList.dropWhile Char.isWhitespace).reverse.dropWhile
    Char.isWhitespace).reverse)

/-- JavaScript truthiness of a value (`none` models undefined). -/
def truthy : Option JsonVal → Bool
  | none => false
  | some JsonVal.jnull => false
  | some (JsonVal.jbool b) => b
  | some (JsonVal.jnum q) => q != 0
  | some (JsonVal.jstr s) => s != ""
  | some (JsonVal.jarr _) => true
  | some (JsonVal.jobj _) => true

/-- JavaScript `a || b`. -/
def jsOr (a b : Option JsonVal) : Option JsonVal :=
  if truthy a then a else b

/-- JavaScript `a && b`. -/
def jsAnd (a b : Option JsonVal) : Option JsonVal :=
  if truthy a then b else a

/-- JavaScript `a ?? b` (nullish coalescing: undefined and null fall
through). -/
def jsNullish (a b : Option JsonVal) : Option JsonVal :=
  match a with
  | none => b
  | some JsonVal.jnull => b
  | some v => some v

/-- First field with the given name in an object field list. -/
def lookupField (key : String) : List (String × JsonVal) → Option JsonVal
  | [] => none
  | f :: rest => if f.1 = key then some f.2 else lookupField key rest

/-- Canonical array index: a nonempty digit string with no leading zero
(except "0" itself), as used by JavaScript array element access. -/
def canonicalIndex? (key : String) : Option Nat :=
  let cs := key.toList
  if cs ≠ [] ∧ cs.all Char.isDigit ∧ (key = "0" ∨ cs.head? ≠ some '0') then
    some (cs.foldl (fun a c => a * 10 + (c.toNat - 48)) 0)
  else none

/-- JavaScript property access `v[key]` for the property names the plugin
reads: object fields, canonical array indices; any other base yields
undefined.  (Property access on null throws in JavaScript; every such access
in the plugin is short-circuit guarded, so the null case is never reached.) -/
def jsProp (v : JsonVal) (key : String) : Option JsonVal :=
  match v with
  | JsonVal.jobj fields => lookupField key fields
  | JsonVal.jarr xs =>
    match canonicalIndex? key with
    | some n => xs.get? n
    | none => none
  | _ => none

/-- Property access lifted to a possibly-undefined base (all uses are
behind truthiness guards, mirroring the source). -/
def jsPropO (v : Option JsonVal) (key : String) : Option JsonVal :=
  match v with
  | some j => jsProp j key
  | none => none

/-- `path.split(".")` over characters. -/
def splitPathAux : List Char → List Char → List String
  | [], acc => [String.mk acc.reverse]
  | c :: rest, acc =>
    if c = '.' then String.mk acc.reverse :: splitPathAux rest []
    else splitPathAux rest (c :: acc)

def splitPath (path : String) : List String :=
  splitPathAux path.toList []

/-- getJsonPath from the source: split the configured path on dots, trim
the parts, drop empty parts, then walk the document; a missing field or a
non-object intermediate value yields undefined. -/
def getJsonPath (j : JsonVal) (path : String) : Option JsonVal :=
  let parts := ((splitPath path).map jsTrim).filter (fun p => p != "")
  parts.foldl (fun cur part => jsPropO cur part) (some j)

/-- Model of the JavaScript String() conversion.  Only the string case is
exercised by the verified properties (the configured field path resolves to
a string in every claim); numbers are rendered with the canonical rational
representation and arrays with the empty string as a simplification. -/
def jsToString : JsonVal → String
  | JsonVal.jnull => "null"
  | JsonVal.jbool b => if b then "true" else "false"
  | JsonVal.jnum q => toString q
  | JsonVal.jstr s => s
  | JsonVal.jarr _ => ""
  | JsonVal.jobj _ => "[object Object]"

/-- Value of a hexadecimal digit character, if any. -/
def charHexVal (c : Char) : Option Nat :=
  if c.isDigit then some (c.toNat - 48)
  else if 'a' ≤ c ∧ c ≤ 'f' then some (c.toNat - 87)
  else if 'A' ≤ c ∧ c ≤ 'F' then some (c.toNat - 55)
  else none

/-- Digit-list value in the given base. -/
def digitsVal (base : Nat) (cs : List Char) : Nat :=
  cs.foldl (fun a c => a * base + ((charHexVal c).getD 0)) 0

def validRadixDigit (base : Nat) (c : Char) : Bool :=
  match charHexVal c with
  | some n => decide (n < base)
  | none => false

/-- A radix literal after a 0x / 0o / 0b prefix: at least one digit of the
radix and nothing else, as accepted by the JavaScript Number coercion. -/
def parseRadix (base : Nat) (cs : List Char) : Option ℚ :=
  if cs ≠ [] ∧ cs.all (validRadixDigit base) then some (mkRat (digitsVal base cs) 1)
  else none

/-- A decimal literal: optional sign, digits with optional fraction and
optional exponent, with no trailing characters, as accepted by the
JavaScript Number coercion.  The value is assembled as one integer
numerator over a power-of-ten denominator. -/
def parseDecimal (cs0 : List Char) : Option ℚ :=
  let sign : Int := match cs0 with
    | '-' :: _ => -1
    | _ => 1
  let cs1 := match cs0 with
    | '+' :: r => r
    | '-' :: r => r
    | _ => cs0
  let ipRest := cs1.span Char.isDigit
  let fpRest : List Char × List Char := match ipRest.2 with
    | '.' :: r => r.span Char.isDigit
    | _ => ([], ipRest.2)
  let ip := ipRest.1
  let fp := fpRest.1
  if ip.isEmpty ∧ fp.isEmpty then none
  else
    let mantNum : Int := sign * (digitsVal 10 ip * 10 ^ fp.length + digitsVal 10 fp)
    let mantDen : Nat := 10 ^ fp.length
    match fpRest.2 with
    | [] => some (mkRat mantNum mantDen)
    | 'e' :: r | 'E' :: r =>
      let eneg : Bool := match r with
        | '-' :: _ => true
        | _ => false
      let r1 := match r with
        | '+' :: r2 => r2
        | '-' :: r2 => r2
        | _ => r
      let edRest := r1.span Char.isDigit
      if edRest.1.isEmpty ∨ ¬ edRest.2.isEmpty then none
      else
        let e := digitsVal 10 edRest.1
        if eneg then some (mkRat mantNum (mantDen * 10 ^ e))
        else some (mkRat (mantNum * 10 ^ e) mantDen)
    | _ => none

/-- Model of the JavaScript Number(string) coercion used by the numeric
field extractors: trim, empty string is 0, radix-prefixed integers and
decimal literals; anything else is NaN, modelled as none.  The literals
Infinity and -Infinity are outside the exact-rational value domain of this
model and are also mapped to none; no verified property exercises them. -/
def jsStrToNum (s : String) : Option ℚ :=
  let t := jsTrim s
  if t = "" then some 0
  else
    match t.toList with
    | '0' :: c :: rest =>
      if c = 'x' ∨ c = 'X' then parseRadix 16 rest
      else if c = 'o' ∨ c = 'O' then parseRadix 8 rest
      else if c = 'b' ∨ c = 'B' then parseRadix 2 rest
      else parseDecimal t.toList
    | _ => parseDecimal t.toList

/-- The shared tail of extractConfidence and extractOccurrence: a numeric
value is taken as is, a string value goes through Number() with NaN giving
null, anything else gives null. -/
def extractNumField (value : Option JsonVal) : Option ℚ :=
  match value with
  | some (JsonVal.jnum q) => some q
  | some (JsonVal.jstr s) => jsStrToNum s
  | _ => none

/-- typeof v === "object" together with truthiness (arrays included, null
excluded), the guard at the top of every extractor. -/
def jsIsObject : JsonVal → Bool
  | JsonVal.jobj _ => true
  | JsonVal.jarr _ => true
  | _ => false

/-- extractConfidence from the source: Confidence and confidence aliases
with attributes and event fallbacks (nested lookups use ||, the top level
uses ??), accepting numbers and numeric strings. -/
def extractConfidence (j : JsonVal) : Option ℚ :=
  if jsIsObject j then
    let attrs := jsProp j "attributes"
    let ev := jsProp j "event"
    let value :=
      jsNullish (jsProp j "Confidence")
        (jsNullish (jsProp j "confidence")
          (jsNullish
            (jsAnd attrs (jsOr (jsPropO attrs "confidence") (jsPropO attrs "Confidence")))
            (jsAnd ev (jsOr (jsPropO ev "confidence") (jsPropO ev "Confidence")))))
    extractNumField value
  else none

/-- extractOccurrence from the source: occurrence ?? Occurrence, accepting
numbers and numeric strings. -/
def extractOccurrence (j : JsonVal) : Option ℚ :=
  if jsIsObject j then
    extractNumField (jsNullish (jsProp j "occurrence") (jsProp j "Occurrence"))
  else none

/-- extractImageUrl from the source: the BirdImage / birdImage nested URL
casings then the flat imageUrl / image_url / image aliases; a nonblank
string is returned trimmed. -/
def extractImageUrl (j : JsonVal) : Option String :=
  if jsIsObject j then
    let bi := jsProp j "BirdImage"
    let bi2 := jsProp j "birdImage"
    let url :=
      jsOr (jsAnd bi (jsOr (jsPropO bi "URL") (jsOr (jsPropO bi "Url") (jsPropO bi "url"))))
        (jsOr (jsAnd bi2 (jsOr (jsPropO bi2 "URL") (jsPropO bi2 "url")))
          (jsOr (jsProp j "imageUrl") (jsOr (jsProp j "image_url") (jsProp j "image"))))
    match url with
    | some (JsonVal.jstr s) => if jsTrim s ≠ "" then some (jsTrim s) else none
    | _ => none
  else none

/-- extractDate from the source: Date || date, a nonblank string returned
trimmed. -/
def extractDate (j : JsonVal) : Option String :=
  if jsIsObject j then
    match jsOr (jsProp j "Date") (jsProp j "date") with
    | some (JsonVal.jstr s) => if jsTrim s ≠ "" then some (jsTrim s) else none
    | _ => none
  else none

/-- The canonical detection record produced by the normalizer. -/
structure Detection where
  name : String
  confidence : Option ℚ
  imageUrl : Option String
  occurrence : Option ℚ
  detectionDate : Option String
deriving Repr, DecidableEq

/-- The ordered candidate list of the heuristic name search in
parsePayload, with the && / || short circuits of the source. -/
def nameCandidates (j : JsonVal) : List (Option JsonVal) :=
  let attrs := jsProp j "attributes"
  let ev := jsProp j "event"
  let results := jsProp j "results"
  let res0 := jsPropO results "0"
  let isArr : Option JsonVal :=
    some (JsonVal.jbool (match results with
      | some (JsonVal.jarr _) => true
      | _ => false))
  [ jsProp j "CommonName", jsProp j "ScientificName", jsProp j "SpeciesCode",
    jsProp j "common_name", jsProp j "commonName", jsProp j "species",
    jsProp j "scientific_name", jsProp j "scientificName", jsProp j "label",
    jsProp j "name", jsProp j "bird_name", jsProp j "detection",
    jsAnd attrs (jsOr (jsPropO attrs "common_name") (jsPropO attrs "species")),
    jsAnd ev (jsOr (jsPropO ev "common_name") (jsPropO ev "species")),
    jsAnd isArr (jsAnd res0 (jsOr (jsPropO res0 "common_name") (jsPropO res0 "species"))) ]

/-- The find predicate of the heuristic search: a string value whose trim is
nonempty. -/
def isNonEmptyStr : Option JsonVal → Bool
  | some (JsonVal.jstr s) => jsTrim s != ""
  | _ => false

/-- parsePayload from the source.  The payloadKey argument is the configured
settings.payloadKey; JSON.parse of the trimmed body is modelled by the
parsed argument (some j when the body parses to j, none when JSON.parse
throws; the source parses the same trimmed text in both branches, so one
oracle value covers both). -/
def parsePayload (payloadKey : String) (body : String) (parsed : Option JsonVal) :
    Option Detection :=
  let text := jsTrim body
  if text = "" then none
  else
    let fromKey : Option Detection :=
      if payloadKey ≠ "" then
        match parsed with
        | some json =>
          let value := getJsonPath json payloadKey
          if truthy value then
            match value with
            | some v =>
              some ⟨jsToString v, extractConfidence json, extractImageUrl json,
                extractOccurrence json, extractDate json⟩
            | none => none
          else none
        | none => none
      else none
    match fromKey with
    | some d => some d
    | none =>
      match parsed with
      | some json =>
        match (nameCandidates json).find? isNonEmptyStr with
        | some (some (JsonVal.jstr s)) =>
          some ⟨s, extractConfidence json, extractImageUrl json,
            extractOccurrence json, extractDate json⟩
        | _ => some ⟨text, none, none, none, none⟩
      | none => some ⟨text, none, none, none, none⟩

/-- The mutable settings bag, restricted to the fields the verified
components read.  A numeric setting is some q for a finite numeric value
and none when the configured value coerces to NaN (the Number.isFinite and
falsiness fallbacks in the source then apply); infinite values are outside
the exact-rational domain of the model. -/
structure Settings where
  payloadKey : String
  rotationSeconds : Option ℚ
  epicOccurrenceThreshold : Option ℚ
  rareOccurrenceThreshold : Option ℚ
  uncommonOccurrenceThreshold : Option ℚ
  rareHoldMultiplier : Option ℚ

/-- The DEFAULTS object of the source, restricted to the same fields. -/
def defaultSettings : Settings :=
  ⟨"CommonName", some (4 : ℚ), some (mkRat 1 10), some (mkRat 2 5),
    some (mkRat 7 10), some (2 : ℚ)⟩

/-- The commonality tier descriptor returned by getCommonality. -/
structure Commonality where
  label : String
  color : String
  shape : String
deriving Repr, DecidableEq

/-- Effective epic cutoff: the configured value (default when not finite)
clamped to the unit interval. -/
def epicCutoff (st : Settings) : ℚ :=
  max 0 (min 1 (st.epicOccurrenceThreshold.getD (mkRat 1 10)))

/-- Effective rare cutoff: clamped above by 1 and below by the epic
cutoff. -/
def rareCutoff (st : Settings) : ℚ :=
  max (epicCutoff st) (min 1 (st.rareOccurrenceThreshold.getD (mkRat 2 5)))

/-- Effective uncommon cutoff: clamped above by 1 and below by the rare
cutoff. -/
def uncommonCutoff (st : Settings) : ℚ :=
  max (rareCutoff st) (min 1 (st.uncommonOccurrenceThreshold.getD (mkRat 7 10)))

/-- getCommonality from the source: a missing or NaN occurrence is Unknown,
otherwise the tier is given by the effective cutoffs. -/
def getCommonality (st : Settings) (occurrence : Option ℚ) : Commonality :=
  match occurrence with
  | none => ⟨"Unknown", "#9ca3af", "hex"⟩
  | some occ =>
    if occ ≤ epicCutoff st then ⟨"Epic", "#7c3aed", "star"⟩
    else if occ ≤ rareCutoff st then ⟨"Rare", "#f59e0b", "diamond"⟩
    else if occ ≤ uncommonCutoff st then ⟨"Uncommon", "#38bdf8", "square"⟩
    else ⟨"Common", "#22c55e", "circle"⟩

/-- Rarity rank of a tier (higher is rarer); Unknown ranks with Common. -/
def tierRank (c : Commonality) : Nat :=
  if c.label = "Epic" then 3
  else if c.label = "Rare" then 2
  else if c.label = "Uncommon" then 1
  else 0

/-- pruneDetections from the source: the while loop shifting timestamps
strictly older than the cutoff off the front of the list. -/
def pruneDetections (cutoff : Int) : List Int → List Int
  | [] => []
  | t :: rest => if t < cutoff then pruneDetections cutoff rest else t :: rest

/-- getDetectionsLastHour from the source: prune against now minus one hour
and return the remaining length. -/
def getDetectionsLastHour (now : Int) (timestamps : List Int) : Nat :=
  (pruneDetections (now - 60 * 60 * 1000) timestamps).length

/-- A species record of the daily aggregate. -/
structure SpeciesRecord where
  name : String
  occurrence : Option ℚ
  confidence : Option ℚ
  lastSeen : Int
deriving Repr, DecidableEq, Inhabited

/-- Lookup in an insertion-ordered string-keyed map (a JavaScript Map). -/
def alistGet {α : Type} (k : String) : List (String × α) → Option α
  | [] => none
  | e :: rest => if e.1 = k then some e.2 else alistGet k rest

/-- Map.set: update in place when the key exists (keeping its position),
append otherwise. -/
def alistSet {α : Type} (k : String) (v : α) : List (String × α) → List (String × α)
  | [] => [(k, v)]
  | e :: rest => if e.1 = k then (k, v) :: rest else e :: alistSet k v rest

/-- Map.delete of one key. -/
def alistRemove {α : Type} (k : String) : List (String × α) → List (String × α)
  | [] => []
  | e :: rest => if e.1 = k then alistRemove k rest else e :: alistRemove k rest

/-- One day's species map: name to record, in insertion order. -/
abbrev DayMap := List (String × SpeciesRecord)

/-- The dailyBirds aggregate: date key to day map. -/
abbrev DailyBirds := List (String × DayMap)

/-- The date key of a detection: detection.detectionDate || today. -/
def detDateKey (todayKey : String) (d : Detection) : String :=
  match d.detectionDate with
  | some s => if s = "" then todayKey else s
  | none => todayKey

/-- The merge step of updateDailyBirds for one species record: the
occurrence variable falls back to the stored one when the detection has
none, the stored occurrence becomes Math.min(occurrence,
existing.occurrence ?? occurrence), confidence falls back likewise, and
lastSeen is the current time. -/
def mergeRecord (now : Int) (d : Detection) (existing : Option SpeciesRecord) :
    SpeciesRecord :=
  let existingOcc := existing.bind (fun r => r.occurrence)
  let existingConf := existing.bind (fun r => r.confidence)
  let occurrence := match d.occurrence with
    | some q => some q
    | none => existingOcc
  let confidence := match d.confidence with
    | some q => some q
    | none => existingConf
  let recOcc := match occurrence with
    | some q => some (min q (existingOcc.getD q))
    | none => none
  ⟨d.name, recOcc, confidence, now⟩

/-- pruneOldDays from the source: delete every date key other than the one
just written. -/
def pruneOldDays (todayKey : String) : DailyBirds → DailyBirds
  | [] => []
  | e :: rest =>
    if e.1 = todayKey then e :: pruneOldDays todayKey rest
    else pruneOldDays todayKey rest

/-- updateDailyBirds from the source: ensure the day map exists, bail out on
an empty name, merge the record, then prune all other days.  The debounced
cache save is persistence-collaborator work and carries no aggregate
state. -/
def updateDailyBirds (todayKey : String) (now : Int) (d : Detection)
    (db : DailyBirds) : DailyBirds :=
  let dateKey := detDateKey todayKey d
  let db1 := if (alistGet dateKey db).isSome then db else alistSet dateKey [] db
  let dayMap := (alistGet dateKey db1).getD []
  if d.name = "" then db1
  else
    let record := mergeRecord now d (alistGet d.name dayMap)
    pruneOldDays dateKey (alistSet dateKey (alistSet d.name record dayMap) db1)

/-- Sort key of the today list: a missing occurrence sorts as 1. -/
def occKey (r : SpeciesRecord) : ℚ :=
  r.occurrence.getD 1

/-- Stable insertion of a record into a list sorted ascending by occKey. -/
def insertByOcc (x : SpeciesRecord) : List SpeciesRecord → List SpeciesRecord
  | [] => [x]
  | y :: rest =>
    if occKey x ≤ occKey y then x :: y :: rest else y :: insertByOcc x rest

/-- Stable sort ascending by occKey, modelling the Array.sort call with
comparator occA - occB (ECMAScript sort is stable, and a stable sort by a
total key is unique, so insertion sort gives the same list). -/
def sortByOcc : List SpeciesRecord → List SpeciesRecord
  | [] => []
  | x :: rest => insertByOcc x (sortByOcc rest)

/-- getTodayBirds from the source: the values of today's day map sorted
ascending by occurrence (missing sorts as 1). -/
def getTodayBirds (todayKey : String) (db : DailyBirds) : List SpeciesRecord :=
  match alistGet todayKey db with
  | none => []
  | some dayMap => sortByOcc (dayMap.map (fun e => e.2))

/-- The record stored for a species under a date key. -/
def storedRecord (dateKey name : String) (db : DailyBirds) : Option SpeciesRecord :=
  (alistGet dateKey db).bind (fun dayMap => alistGet name dayMap)

/-- Per-context rotation state: the stored index and the rare-hold flag of
the last displayed species. -/
structure RotState where
  index : Nat
  lastRareHold : Bool
deriving Repr, DecidableEq

/-- What one rotation tick shows. -/
inductive RotOutput where
  | waiting : RotOutput
  | display : SpeciesRecord → RotOutput
deriving Repr, DecidableEq

/-- The Number(x) || default coercion of the source (NaN and 0 are falsy
and fall back to the default). -/
def numOr (o : Option ℚ) (d : ℚ) : ℚ :=
  match o with
  | some q => if q = 0 then d else q
  | none => d

/-- The rare-hold test of rotateOnce: the displayed occurrence is a number
at or below the (unclamped, default-falling-back) rare threshold. -/
def rareHold (st : Settings) (bird : SpeciesRecord) : Bool :=
  match bird.occurrence with
  | some q => decide (q ≤ numOr st.rareOccurrenceThreshold (mkRat 2 5))
  | none => false

/-- The display half of rotateOnce: an empty list shows the waiting
placeholder and clears the hold flag; otherwise the index is wrapped to 0
when out of range, that species is displayed, the index advances and the
hold flag records whether it was rare. -/
def rotateDisplay (st : Settings) (birds : List SpeciesRecord) (s : RotState) :
    RotOutput × RotState :=
  if birds.isEmpty then
    (RotOutput.waiting, { s with lastRareHold := false })
  else
    let i := if s.index ≥ birds.length then 0 else s.index
    let bird := birds.getD i default
    (RotOutput.display bird, ⟨i + 1, rareHold st bird⟩)

/-- rotateOnce from the source: the display step followed by the delay for
the next timer, rotationSeconds × 1000 times the hold multiplier when the
hold flag is set, floored at 1 ms. -/
def rotateOnce (st : Settings) (birds : List SpeciesRecord) (s : RotState) :
    RotOutput × RotState × ℚ :=
  let r := rotateDisplay st birds s
  let seconds := numOr st.rotationSeconds (4 : ℚ)
  let holdMultiplier := numOr st.rareHoldMultiplier (2 : ℚ)
  let delayMs := max 1 (seconds * 1000 * (if r.2.lastRareHold then holdMultiplier else 1))
  (r.1, r.2, delayMs)

/-- n consecutive rotation ticks over a fixed species list: the outputs in
order together with the final rotation state. -/
def rotateRun (st : Settings) (birds : List SpeciesRecord) :
    Nat → RotState → List RotOutput × RotState
  | 0, s => ([], s)
  | n + 1, s =>
    let r := rotateOnce st birds s
    let rest := rotateRun st birds n r.2.1
    (r.1 :: rest.1, rest.2)

/-- The image cache state: the permanent url-to-data cache and the
url-to-request in-flight map. -/
structure ImageCacheState where
  imageCache : List (String × String)
  imageInFlight : List (String × Nat)
deriving Repr, DecidableEq

/-- What a fetchImageData call does: resolve from the cache, attach to an
in-flight request, or start a new network request. -/
inductive FetchCall where
  | cached : String → FetchCall
  | attached : Nat → FetchCall
  | started : Nat → FetchCall
deriving Repr, DecidableEq

/-- fetchImageData from the source, as one step of the event loop: a cache
hit resolves immediately, an in-flight hit returns the existing promise,
otherwise a new network request is issued and registered in flight.
freshReq names the new request; attached callers receive the outcome of the
request they name, so equal request ids mean one shared network call and
one shared result. -/
def fetchImageData (url : String) (freshReq : Nat) (st : ImageCacheState) :
    FetchCall × ImageCacheState :=
  match alistGet url st.imageCache with
  | some dataUri => (FetchCall.cached dataUri, st)
  | none =>
    match alistGet url st.imageInFlight with
    | some req => (FetchCall.attached req, st)
    | none =>
      (FetchCall.started freshReq,
        { st with imageInFlight := alistSet url freshReq st.imageInFlight })

/-- Settlement of a network request from fetchImageData: success stores the
data URI in the cache, failure stores nothing; the finally clause removes
the in-flight entry in both cases. -/
def settleFetch (url : String) (outcome : Option String) (st : ImageCacheState) :
    ImageCacheState :=
  match outcome with
  | some dataUri =>
    { imageCache := alistSet url dataUri st.imageCache,
      imageInFlight := alistRemove url st.imageInFlight }
  | none => { st with imageInFlight := alistRemove url st.imageInFlight }

/-- The payload of the end-to-end normalizer example, with braces written
as their character escapes. -/
def blueJayBody : String :=
  "\x7b\"CommonName\":\"Blue Jay\",\"Confidence\":0.87,\"occurrence\":0.05\x7d"

/-- JSON.parse of blueJayBody. -/
def blueJayJson : JsonVal :=
  JsonVal.jobj [("CommonName", JsonVal.jstr "Blue Jay"),
    ("Confidence", JsonVal.jnum (mkRat 87 100)),
    ("occurrence", JsonVal.jnum (mkRat 1 20))]

/-- A two-species day map fixture: species A rarer than species B. -/
def fixtureDb : DailyBirds :=
  [("2026-10-11", [("A", ⟨"A", some ((0 : ℚ)), none, 0⟩),
    ("B", ⟨"B", some ((1 : ℚ)), none, 0⟩)])]

/-- A one-species day map fixture. -/
def fixtureDbOne : DailyBirds :=
  [("2026-10-11", [("A", ⟨"A", some ((0 : ℚ)), none, 0⟩)])]

theorem alistGet_set_self {α : Type} (k : String) (v : α) (l : List (String × α)) :
    alistGet k (alistSet k v l) = some v := by
  induction l with
  | nil => simp [alistGet, alistSet]
  | cons e rest ih =>
    by_cases h : e.1 = k
    · simp [alistSet, alistGet, h]
    · simp [alistSet, alistGet, h, ih]

theorem alistGet_prune_self (k : String) (l : DailyBirds) :
    alistGet k (pruneOldDays k l) = alistGet k l := by
  induction l with
  | nil => rfl
  | cons e rest ih =>
    by_cases h : e.1 = k
    · simp [pruneOldDays, alistGet, h, ih]
    · simp [pruneOldDays, alistGet, h, ih]

theorem alistGet_prune_ne (k t : String) (h : k ≠ t) (l : DailyBirds) :
    alistGet k (pruneOldDays t l) = none := by
  induction l with
  | nil => rfl
  | cons e rest ih =>
    by_cases he : e.1 = t
    · have hek : e.1 ≠ k := by rw [he]; exact fun hh => h hh.symm
      simp [pruneOldDays, he, alistGet, hek, ih, h.symm]
    · simp [pruneOldDays, he, ih]

theorem keys_prune (t : String) (l : DailyBirds) (k : String)
    (hk : k ∈ (pruneOldDays t l).map (fun e => e.1)) : k = t := by
  induction l with
  | nil => simp [pruneOldDays] at hk
  | cons e rest ih =>
    by_cases he : e.1 = t
    · simp only [pruneOldDays, if_pos he, List.map_cons, List.mem_cons] at hk
      rcases hk with h | h
      · rw [h, he]
      · exact ih h
    · simp only [pruneOldDays, if_neg he] at hk
      exact ih hk

theorem alistGet_remove_self {α : Type} (k : String) (l : List (String × α)) :
    alistGet k (alistRemove k l) = none := by
  induction l with
  | nil => rfl
  | cons e rest ih =>
    by_cases h : e.1 = k
    · simp [alistRemove, h, ih]
    · simp [alistRemove, alistGet, h, ih]

theorem getTodayBirds_eq (todayKey : String) (db : DailyBirds) :
    getTodayBirds todayKey db
      = sortByOcc (((alistGet todayKey db).getD []).map (fun e => e.2)) := by
  rcases h : alistGet todayKey db with _ | m <;> simp [getTodayBirds, h, sortByOcc]

theorem insertByOcc_perm (x : SpeciesRecord) (l : List SpeciesRecord) :
    (insertByOcc x l).Perm (x :: l) := by
  induction l with
  | nil => exact List.Perm.refl _
  | cons y rest ih =>
    by_cases h : occKey x ≤ occKey y
    · simp only [insertByOcc, if_pos h]
      exact List.Perm.refl _
    · simp only [insertByOcc, if_neg h]
      exact (ih.cons y).trans (List.Perm.swap x y rest)

theorem sortByOcc_perm (l : List SpeciesRecord) : (sortByOcc l).Perm l := by
  induction l with
  | nil => exact List.Perm.refl _
  | cons x rest ih => exact (insertByOcc_perm x (sortByOcc rest)).trans (ih.cons x)

theorem insertByOcc_pairwise (x : SpeciesRecord) (l : List SpeciesRecord)
    (hl : l.Pairwise (fun a b => occKey a ≤ occKey b)) :
    (insertByOcc x l).Pairwise (fun a b => occKey a ≤ occKey b) := by
  induction l with
  | nil => simp [insertByOcc]
  | cons y rest ih =>
    rcases List.pairwise_cons.mp hl with ⟨hy, hrest⟩
    by_cases h : occKey x ≤ occKey y
    · simp only [insertByOcc, if_pos h]
      refine List.Pairwise.cons ?_ hl
      intro z hz
      rcases List.mem_cons.mp hz with rfl | hz'
      · exact h
      · exact h.trans (hy z hz')
    · simp only [insertByOcc, if_neg h]
      refine List.Pairwise.cons ?_ (ih hrest)
      intro z hz
      have hmem := (insertByOcc_perm x rest).mem_iff.mp hz
      rcases List.mem_cons.mp hmem with rfl | hz'
      · exact le_of_not_le h
      · exact hy z hz'

theorem sortByOcc_pairwise (l : List SpeciesRecord) :
    (sortByOcc l).Pairwise (fun a b => occKey a ≤ occKey b) := by
  induction l with
  | nil => simp [sortByOcc]
  | cons x rest ih => exact insertByOcc_pairwise x _ ih

theorem rotateOnce_fst (st : Settings) (birds : List SpeciesRecord) (s : RotState) :
    (rotateOnce st birds s).1 = (rotateDisplay st birds s).1 := rfl

theorem rotateOnce_state (st : Settings) (birds : List SpeciesRecord) (s : RotState) :
    (rotateOnce st birds s).2.1 = (rotateDisplay st birds s).2 := rfl

theorem rotateRun_spec (st : Settings) (birds : List SpeciesRecord) :
    ∀ (n i : Nat) (hold : Bool), i + n ≤ birds.length →
      (rotateRun st birds n ⟨i, hold⟩).1
          = ((birds.drop i).take n).map RotOutput.display
      ∧ (rotateRun st birds n ⟨i, hold⟩).2.index = i + n := by
  intro n
  induction n with
  | zero => intro i hold _; exact ⟨by simp [rotateRun], by simp [rotateRun]⟩
  | succ n ih =>
    intro i hold h
    have hi : i < birds.length := by omega
    have hne : birds.isEmpty = false := by
      rcases birds with _ | ⟨b, bs⟩
      · simp at hi
      · rfl
    have hstep : rotateDisplay st birds ⟨i, hold⟩
        = (RotOutput.display (birds.getD i default),
            ⟨i + 1, rareHold st (birds.getD i default)⟩) := by
      simp [rotateDisplay, hne, Nat.not_le.mpr hi]
    have hrun : rotateRun st birds (n + 1) ⟨i, hold⟩
        = (RotOutput.display (birds.getD i default) ::
            (rotateRun st birds n ⟨i + 1, rareHold st (birds.getD i default)⟩).1,
          (rotateRun st birds n ⟨i + 1, rareHold st (birds.getD i default)⟩).2) := by
      simp [rotateRun, rotateOnce, hstep]
    obtain ⟨ih1, ih2⟩ := ih (i + 1) (rareHold st (birds.getD i default)) (by omega)
    constructor
    · rw [hrun]
      simp only [ih1]
      have hdrop : birds.drop i = birds[i] :: birds.drop (i + 1) :=
        List.drop_eq_getElem_cons hi
      have hgd : birds.getD i default = birds[i] := by
        simp [List.getD_eq_getElem?_getD, List.getElem?_eq_getElem hi]
      rw [hdrop, List.take_succ_cons, hgd, List.map_cons]
    · rw [hrun]
      rw [ih2]
      omega

/-- C1 (amended): for a rotation state at the start of a cycle (index 0, as
when freshly created), with the fixed today list of N at least 1 species, N
consecutive ticks display exactly the today list (each species exactly
once, ascending by occurrence with a missing occurrence sorting as 1, each
species of the day appearing), and the (N+1)th tick displays the same
species as the first tick. -/
theorem rotation_cycling_from_cycle_start (todayKey : String) (db : DailyBirds)
    (st : Settings) (s : RotState) (h0 : s.index = 0)
    (hN : 1 ≤ (getTodayBirds todayKey db).length) :
    (rotateRun st (getTodayBirds todayKey db) (getTodayBirds todayKey db).length s).1
        = (getTodayBirds todayKey db).map RotOutput.display
    ∧ (rotateOnce st (getTodayBirds todayKey db)
          (rotateRun st (getTodayBirds todayKey db)
            (getTodayBirds todayKey db).length s).2).1
        = (rotateOnce st (getTodayBirds todayKey db) s).1
    ∧ (getTodayBirds todayKey db).Pairwise (fun a b => occKey a ≤ occKey b)
    ∧ (getTodayBirds todayKey db).Perm
        (((alistGet todayKey db).getD []).map (fun e => e.2)) := by
  obtain ⟨i, hold⟩ := s
  have h0' : i = 0 := h0
  subst h0'
  obtain ⟨hrun, hidx⟩ :=
    rotateRun_spec st (getTodayBirds todayKey db) (getTodayBirds todayKey db).length
      0 hold (by omega)
  have hne : (getTodayBirds todayKey db).isEmpty = false := by
    rcases hb : getTodayBirds todayKey db with _ | ⟨b, bs⟩
    · rw [hb] at hN; simp at hN
    · rfl
  refine ⟨?_, ?_, ?_, ?_⟩
  · rw [hrun]
    simp
  · rw [rotateOnce_fst, rotateOnce_fst]
    have hL : (rotateDisplay st (getTodayBirds todayKey db) ⟨0, hold⟩).1
        = RotOutput.display ((getTodayBirds todayKey db).getD 0 default) := by
      simp [rotateDisplay, hne, ite_self]
    have hR : (rotateDisplay st (getTodayBirds todayKey db)
          (rotateRun st (getTodayBirds todayKey db)
            (getTodayBirds todayKey db).length ⟨0, hold⟩).2).1
        = RotOutput.display ((getTodayBirds todayKey db).getD 0 default) := by
      have hidx' : (rotateRun st (getTodayBirds todayKey db)
          (getTodayBirds todayKey db).length ⟨0, hold⟩).2.index
          = (getTodayBirds todayKey db).length := by simpa using hidx
      simp [rotateDisplay, hne, hidx']
    rw [hL, hR]
  · rw [getTodayBirds_eq]
    exact sortByOcc_pairwise _
  · rw [getTodayBirds_eq]
    exact sortByOcc_perm _

theorem rotation_cycling_from_cycle_start_witness :
    (rotateRun defaultSettings (getTodayBirds "2026-10-11" fixtureDbOne)
        (getTodayBirds "2026-10-11" fixtureDbOne).length ⟨0, false⟩).1
        = (getTodayBirds "2026-10-11" fixtureDbOne).map RotOutput.display
    ∧ (rotateOnce defaultSettings (getTodayBirds "2026-10-11" fixtureDbOne)
          (rotateRun defaultSettings (getTodayBirds "2026-10-11" fixtureDbOne)
            (getTodayBirds "2026-10-11" fixtureDbOne).length ⟨0, false⟩).2).1
        = (rotateOnce defaultSettings (getTodayBirds "2026-10-11" fixtureDbOne)
            ⟨0, false⟩).1
    ∧ (getTodayBirds "2026-10-11" fixtureDbOne).Pairwise
        (fun a b => occKey a ≤ occKey b)
    ∧ (getTodayBirds "2026-10-11" fixtureDbOne).Perm
        (((alistGet "2026-10-11" fixtureDbOne).getD []).map (fun e => e.2)) :=
  rotation_cycling_from_cycle_start "2026-10-11" fixtureDbOne defaultSettings
    ⟨0, false⟩ rfl (by decide)

/-- C1 counterexample: from the reachable mid-cycle rotation state with
index 1 over the fixed two-species today list (occurrences 0 and 1), the
next N = 2 ticks display the species with occurrence 1 first and the rarer
one second, so the N consecutive ticks are not in ascending occurrence
order (they are not the ascending today list). -/
theorem rotation_cycling_midcycle_not_ascending :
    (rotateRun defaultSettings (getTodayBirds "2026-10-11" fixtureDb) 2 ⟨1, false⟩).1
        = [RotOutput.display ⟨"B", some ((1 : ℚ)), none, 0⟩,
           RotOutput.display ⟨"A", some ((0 : ℚ)), none, 0⟩]
    ∧ ¬ ((rotateRun defaultSettings (getTodayBirds "2026-10-11" fixtureDb) 2
          ⟨1, false⟩).1
        = (getTodayBirds "2026-10-11" fixtureDb).map RotOutput.display) := by
  decide

theorem storedRecord_update (todayKey : String) (now : Int) (d : Detection)
    (hname : d.name ≠ "") (hdate : d.detectionDate = none) (db : DailyBirds) :
    storedRecord todayKey d.name (updateDailyBirds todayKey now d db)
      = some (mergeRecord now d (storedRecord todayKey d.name db)) := by
  rcases hdb : alistGet todayKey db with _ | m
  · simp only [storedRecord, updateDailyBirds, detDateKey, hdate, hname, hdb]
    simp [alistGet_set_self, alistGet_prune_self, hdb]
    rfl
  · simp [storedRecord, updateDailyBirds, detDateKey, hdate, hname, hdb,
      alistGet_set_self, alistGet_prune_self]

/-- C2: two same-day upserts of one species with observed occurrences store
their minimum in either order; an upsert with no occurrence leaves the
stored occurrence unchanged; lastSeen is always the newest upsert time and
confidence the most recently observed confidence value. -/
theorem daily_merge_min_law (todayKey name : String) (t1 t2 : Int)
    (o1 o2 c1 c2 : ℚ) (db : DailyBirds)
    (hname : name ≠ "")
    (hfresh : storedRecord todayKey name db = none) :
    storedRecord todayKey name
        (updateDailyBirds todayKey t2 ⟨name, some c2, none, some o2, none⟩
          (updateDailyBirds todayKey t1 ⟨name, some c1, none, some o1, none⟩ db))
      = some ⟨name, some (min o1 o2), some c2, t2⟩
    ∧ storedRecord todayKey name
        (updateDailyBirds todayKey t2 ⟨name, some c1, none, some o1, none⟩
          (updateDailyBirds todayKey t1 ⟨name, some c2, none, some o2, none⟩ db))
      = some ⟨name, some (min o1 o2), some c1, t2⟩
    ∧ (∀ (db' : DailyBirds) (t : Int) (c : Option ℚ),
        (storedRecord todayKey name
            (updateDailyBirds todayKey t ⟨name, c, none, none, none⟩ db')).bind
            (fun r => r.occurrence)
          = (storedRecord todayKey name db').bind (fun r => r.occurrence)
        ∧ (storedRecord todayKey name
            (updateDailyBirds todayKey t ⟨name, c, none, none, none⟩ db')).map
            (fun r => r.lastSeen)
          = some t) := by
  refine ⟨?_, ?_, ?_⟩
  · rw [storedRecord_update todayKey t2 ⟨name, some c2, none, some o2, none⟩ hname rfl,
      storedRecord_update todayKey t1 ⟨name, some c1, none, some o1, none⟩ hname rfl,
      hfresh]
    simp [mergeRecord, min_comm o2 o1]
  · rw [storedRecord_update todayKey t2 ⟨name, some c1, none, some o1, none⟩ hname rfl,
      storedRecord_update todayKey t1 ⟨name, some c2, none, some o2, none⟩ hname rfl,
      hfresh]
    simp [mergeRecord]
  · intro db' t c
    rw [storedRecord_update todayKey t ⟨name, c, none, none, none⟩ hname rfl]
    rcases hr : storedRecord todayKey name db' with _ | r
    · simp [mergeRecord]
    · rcases ho : r.occurrence with _ | q <;> simp [mergeRecord, ho]

theorem daily_merge_min_law_witness :
    storedRecord "2026-10-11" "Robin"
        (updateDailyBirds "2026-10-11" 5
          ⟨"Robin", some (mkRat 4 5), none, some (mkRat 1 5), none⟩
          (updateDailyBirds "2026-10-11" 0
            ⟨"Robin", some (mkRat 9 10), none, some (mkRat 1 2), none⟩ []))
      = some ⟨"Robin", some (min (mkRat 1 2) (mkRat 1 5)), some (mkRat 4 5), 5⟩
    ∧ storedRecord "2026-10-11" "Robin"
        (updateDailyBirds "2026-10-11" 5
          ⟨"Robin", some (mkRat 9 10), none, some (mkRat 1 2), none⟩
          (updateDailyBirds "2026-10-11" 0
            ⟨"Robin", some (mkRat 4 5), none, some (mkRat 1 5), none⟩ []))
      = some ⟨"Robin", some (min (mkRat 1 2) (mkRat 1 5)), some (mkRat 9 10), 5⟩ :=
  ⟨(daily_merge_min_law "2026-10-11" "Robin" 0 5 (mkRat 1 2) (mkRat 1 5)
      (mkRat 9 10) (mkRat 4 5) [] (by decide) rfl).1,
    (daily_merge_min_law "2026-10-11" "Robin" 0 5 (mkRat 1 2) (mkRat 1 5)
      (mkRat 9 10) (mkRat 4 5) [] (by decide) rfl).2.1⟩

/-- C3 counterexample: a single timestamp recorded at time 0 and queried at
time 3600000 is exactly 3,600,000 ms old; the code counts it (the prune
drops only strictly older entries), while the claimed half-open window
(t-3600000, t] would not. -/
theorem rolling_counter_boundary_included :
    getDetectionsLastHour 3600000 [0] = 1
    ∧ ([(0 : Int)].countP
        (fun ts => decide (3600000 - 3600000 < ts ∧ ts ≤ 3600000))) = 0 := by
  decide

/-- C3 (amended): for timestamps recorded in non-decreasing order and none
later than the query time t, the count equals the number of recorded
timestamps in the closed interval from t - 3,600,000 to t; a timestamp
exactly 3,600,000 ms old is included. -/
theorem rolling_counter_closed_window (now : Int) (l : List Int)
    (hsorted : l.Pairwise (fun a b => a ≤ b)) (hle : ∀ t ∈ l, t ≤ now) :
    getDetectionsLastHour now l
      = l.countP (fun t => decide (now - 3600000 ≤ t ∧ t ≤ now)) := by
  induction l with
  | nil => rfl
  | cons t rest ih =>
    rcases List.pairwise_cons.mp hsorted with ⟨hhead, hrest⟩
    have hcut : (60 : Int) * 60 * 1000 = 3600000 := by norm_num
    by_cases h : t < now - 3600000
    · have h' : t < now - 60 * 60 * 1000 := by rw [hcut]; exact h
      have hp : ¬ (now - 3600000 ≤ t ∧ t ≤ now) := fun hc => absurd hc.1 (not_le.mpr h)
      simp only [getDetectionsLastHour, pruneDetections, if_pos h', List.countP_cons,
        hp, decide_eq_true_eq]
      rw [← getDetectionsLastHour]
      simp only [ih hrest (fun x hx => hle x (List.mem_cons_of_mem t hx)), hp]
      simp
    · have h' : ¬ t < now - 60 * 60 * 1000 := by rw [hcut]; exact h
      have hp : (now - 3600000 ≤ t ∧ t ≤ now) :=
        ⟨not_lt.mp h, hle t (List.mem_cons_self t rest)⟩
      have hall : ∀ x ∈ rest, decide (now - 3600000 ≤ x ∧ x ≤ now) = true := by
        intro x hx
        have h1 : now - 3600000 ≤ x := le_trans (not_lt.mp h) (hhead x hx)
        have h2 : x ≤ now := hle x (List.mem_cons_of_mem t hx)
        simp [h1, h2]
      simp only [getDetectionsLastHour, pruneDetections, if_neg h', List.length_cons,
        List.countP_cons, hp, decide_eq_true_eq, if_pos]
      rw [List.countP_eq_length.mpr hall]
      simp

/-- C4: for every configuration (the thresholds being any rationals or
NaN), the effective cutoffs satisfy 0 ≤ epic ≤ rare ≤ uncommon ≤ 1, and
classification is a total function that does not invert the tier ordering:
a lower occurrence never receives a strictly less rare tier. -/
theorem rarity_cutoffs_monotone (st : Settings) :
    (0 ≤ epicCutoff st ∧ epicCutoff st ≤ rareCutoff st
      ∧ rareCutoff st ≤ uncommonCutoff st ∧ uncommonCutoff st ≤ 1)
    ∧ ∀ o1 o2 : ℚ, o1 ≤ o2 →
        tierRank (getCommonality st (some o2))
          ≤ tierRank (getCommonality st (some o1)) := by
  have he1 : epicCutoff st ≤ 1 := max_le (by norm_num) (min_le_left _ _)
  have hr1 : rareCutoff st ≤ 1 := max_le he1 (min_le_left _ _)
  have hu1 : uncommonCutoff st ≤ 1 := max_le hr1 (min_le_left _ _)
  have her : epicCutoff st ≤ rareCutoff st := le_max_left _ _
  have hru : rareCutoff st ≤ uncommonCutoff st := le_max_left _ _
  refine ⟨⟨le_max_left _ _, her, hru, hu1⟩, ?_⟩
  intro o1 o2 h
  simp only [getCommonality]
  split_ifs <;> first
    | decide
    | (exfalso; linarith)

theorem rarity_cutoffs_monotone_witness :
    (0 ≤ epicCutoff ⟨"CommonName", some (4 : ℚ), some (mkRat 9 10),
        some (mkRat 1 10), some (mkRat 1 2), some (2 : ℚ)⟩
      ∧ epicCutoff ⟨"CommonName", some (4 : ℚ), some (mkRat 9 10),
          some (mkRat 1 10), some (mkRat 1 2), some (2 : ℚ)⟩
        ≤ rareCutoff ⟨"CommonName", some (4 : ℚ), some (mkRat 9 10),
            some (mkRat 1 10), some (mkRat 1 2), some (2 : ℚ)⟩
      ∧ rareCutoff ⟨"CommonName", some (4 : ℚ), some (mkRat 9 10),
          some (mkRat 1 10), some (mkRat 1 2), some (2 : ℚ)⟩
        ≤ uncommonCutoff ⟨"CommonName", some (4 : ℚ), some (mkRat 9 10),
            some (mkRat 1 10), some (mkRat 1 2), some (2 : ℚ)⟩
      ∧ uncommonCutoff ⟨"CommonName", some (4 : ℚ), some (mkRat 9 10),
          some (mkRat 1 10), some (mkRat 1 2), some (2 : ℚ)⟩ ≤ 1)
    ∧ tierRank (getCommonality ⟨"CommonName", some (4 : ℚ), some (mkRat 9 10),
          some (mkRat 1 10), some (mkRat 1 2), some (2 : ℚ)⟩ (some (mkRat 3 10)))
        ≤ tierRank (getCommonality ⟨"CommonName", some (4 : ℚ), some (mkRat 9 10),
            some (mkRat 1 10), some (mkRat 1 2), some (2 : ℚ)⟩ (some (mkRat 1 5))) :=
  ⟨(rarity_cutoffs_monotone _).1,
    (rarity_cutoffs_monotone _).2 (mkRat 1 5) (mkRat 3 10) (by decide)⟩

/-- C5: for a tick that displays a species, under numeric settings whose
products with 1000 reach the 1 ms floor, the armed delay equals
rotationSeconds × 1000 times the configured hold multiplier exactly when
the displayed occurrence is at or below the rare threshold, and
rotationSeconds × 1000 otherwise. -/
theorem rotation_dwell_time_hold (st : Settings) (birds : List SpeciesRecord)
    (s : RotState) (sec m : ℚ) (bird : SpeciesRecord)
    (hsec : st.rotationSeconds = some sec) (hsec0 : sec ≠ 0)
    (hm : st.rareHoldMultiplier = some m) (hm0 : m ≠ 0)
    (h1 : 1 ≤ sec * 1000) (h2 : 1 ≤ sec * 1000 * m)
    (hdisp : (rotateOnce st birds s).1 = RotOutput.display bird) :
    (rotateOnce st birds s).2.2
      = if rareHold st bird then sec * 1000 * m else sec * 1000 := by
  rw [rotateOnce_fst] at hdisp
  have hdelay : (rotateOnce st birds s).2.2
      = max 1 (numOr st.rotationSeconds (4 : ℚ) * 1000 *
          (if (rotateDisplay st birds s).2.lastRareHold then
            numOr st.rareHoldMultiplier (2 : ℚ) else 1)) := rfl
  have hhold : (rotateDisplay st birds s).2.lastRareHold = rareHold st bird := by
    cases hbe : birds.isEmpty with
    | true => simp [rotateDisplay, hbe] at hdisp
    | false =>
      simp only [rotateDisplay, hbe, Bool.false_eq_true, if_false,
        RotOutput.display.injEq] at hdisp ⊢
      rw [hdisp]
  rw [hdelay, hhold, hsec, hm]
  simp only [numOr, hsec0, hm0, if_neg hsec0, if_neg hm0]
  cases hr : rareHold st bird with
  | false =>
    simp only [Bool.false_eq_true, if_false, mul_one]
    exact max_eq_right h1
  | true =>
    simp only [if_true]
    exact max_eq_right h2

theorem rotation_dwell_time_hold_witness :
    (rotateOnce defaultSettings [⟨"A", some ((0 : ℚ)), none, 0⟩] ⟨0, false⟩).2.2
      = if rareHold defaultSettings ⟨"A", some ((0 : ℚ)), none, 0⟩
          then (4 : ℚ) * 1000 * 2 else (4 : ℚ) * 1000 :=
  rotation_dwell_time_hold defaultSettings [⟨"A", some ((0 : ℚ)), none, 0⟩]
    ⟨0, false⟩ 4 2 ⟨"A", some ((0 : ℚ)), none, 0⟩ rfl (by norm_num) rfl
    (by norm_num) (by norm_num) (by norm_num) (by decide)

/-- C10: every rotation tick arms a delay of at least 1 millisecond, for
every settings configuration (zero, negative or non-numeric rotation
seconds or hold multiplier included) and every rotation state, because the
computed delay is floored by Math.max(1, ...). -/
theorem timer_delay_floor (st : Settings) (birds : List SpeciesRecord)
    (s : RotState) :
    1 ≤ (rotateOnce st birds s).2.2 :=
  le_max_left 1 _

/-- C6: after every upsert of a named detection whose date key is k, the
daily aggregate retains no date key other than k: every remaining key
equals k, any other key maps to nothing, and the today list of any other
day (in particular the prior day after a rollover) is empty. -/
theorem single_day_retention (todayKey : String) (now : Int) (d : Detection)
    (db : DailyBirds) (hname : d.name ≠ "") :
    (∀ k, k ∈ (updateDailyBirds todayKey now d db).map (fun e => e.1)
        → k = detDateKey todayKey d)
    ∧ (∀ k, k ≠ detDateKey todayKey d
        → alistGet k (updateDailyBirds todayKey now d db) = none)
    ∧ (∀ tk, tk ≠ detDateKey todayKey d
        → getTodayBirds tk (updateDailyBirds todayKey now d db) = []) := by
  refine ⟨?_, ?_, ?_⟩
  · intro k hk
    simp only [updateDailyBirds, if_neg hname] at hk
    exact keys_prune _ _ _ hk
  · intro k hk
    simp only [updateDailyBirds, if_neg hname]
    exact alistGet_prune_ne _ _ hk _
  · intro tk htk
    have hnone : alistGet tk (updateDailyBirds todayKey now d db) = none := by
      simp only [updateDailyBirds, if_neg hname]
      exact alistGet_prune_ne _ _ htk _
    simp [getTodayBirds, hnone]

theorem single_day_retention_witness :
    alistGet "2026-10-11"
        (updateDailyBirds "2026-10-11" 7
          ⟨"C", none, none, none, some "2026-10-12"⟩ fixtureDb) = none
    ∧ getTodayBirds "2026-10-11"
        (updateDailyBirds "2026-10-11" 7
          ⟨"C", none, none, none, some "2026-10-12"⟩ fixtureDb) = [] :=
  ⟨(single_day_retention "2026-10-11" 7 ⟨"C", none, none, none, some "2026-10-12"⟩
      fixtureDb (by decide)).2.1 "2026-10-11" (by decide),
   (single_day_retention "2026-10-11" 7 ⟨"C", none, none, none, some "2026-10-12"⟩
      fixtureDb (by decide)).2.2 "2026-10-11" (by decide)⟩

/-- C7: a cached URL resolves immediately with the cached entry and no
state change or network call; a second fetch before settlement attaches to
the in-flight request id, so exactly one network request exists and both
callers read the outcome of the same request; a failed settlement caches
nothing and removes the in-flight entry, so a later fetch of that URL
starts a fresh network request; a successful settlement also removes the
in-flight entry. -/
theorem image_fetch_dedup :
    (∀ (url dataUri : String) (freshReq : Nat) (st : ImageCacheState),
        alistGet url st.imageCache = some dataUri →
        fetchImageData url freshReq st = (FetchCall.cached dataUri, st))
    ∧ (∀ (url : String) (r1 r2 : Nat) (st : ImageCacheState),
        alistGet url st.imageCache = none → alistGet url st.imageInFlight = none →
        (fetchImageData url r1 st).1 = FetchCall.started r1
        ∧ (fetchImageData url r2 (fetchImageData url r1 st).2).1
            = FetchCall.attached r1
        ∧ (fetchImageData url r2 (fetchImageData url r1 st).2).2
            = (fetchImageData url r1 st).2)
    ∧ (∀ (url : String) (st : ImageCacheState),
        (settleFetch url none st).imageCache = st.imageCache
        ∧ alistGet url (settleFetch url none st).imageInFlight = none
        ∧ (∀ freshReq, alistGet url st.imageCache = none →
            (fetchImageData url freshReq (settleFetch url none st)).1
              = FetchCall.started freshReq))
    ∧ (∀ (url dataUri : String) (st : ImageCacheState),
        alistGet url (settleFetch url (some dataUri) st).imageInFlight = none) := by
  refine ⟨?_, ?_, ?_, ?_⟩
  · intro url dataUri freshReq st h
    simp [fetchImageData, h]
  · intro url r1 r2 st hc hf
    refine ⟨?_, ?_, ?_⟩ <;> simp [fetchImageData, hc, hf, alistGet_set_self]
  · intro url st
    refine ⟨rfl, alistGet_remove_self _ _, ?_⟩
    intro freshReq hc
    simp [fetchImageData, settleFetch, hc, alistGet_remove_self]
  · intro url dataUri st
    exact alistGet_remove_self _ _

theorem image_fetch_dedup_witness :
    fetchImageData "u" 7 ⟨[("u", "data")], []⟩
        = (FetchCall.cached "data", ⟨[("u", "data")], []⟩)
    ∧ (fetchImageData "u" 2 (fetchImageData "u" 1 ⟨[], []⟩).2).1
        = FetchCall.attached 1
    ∧ (fetchImageData "u" 3
        (settleFetch "u" none (fetchImageData "u" 1 ⟨[], []⟩).2)).1
        = FetchCall.started 3 :=
  ⟨image_fetch_dedup.1 "u" "data" 7 ⟨[("u", "data")], []⟩ rfl,
   (image_fetch_dedup.2.1 "u" 1 2 ⟨[], []⟩ rfl rfl).2.1,
   (image_fetch_dedup.2.2.1 "u" (fetchImageData "u" 1 ⟨[], []⟩).2).2.2 3 rfl⟩

/-- C8: the three normalizer input shapes: the Blue Jay payload with field
path CommonName yields the detection named Blue Jay with confidence 0.87
and occurrence 0.05, classified Epic under the default cutoffs; an empty or
whitespace-only body yields no detection; any nonempty body that is not
parseable JSON yields a detection whose name is the trimmed body text with
all four auxiliary fields null. -/
theorem normalizer_three_shapes :
    parsePayload "CommonName" blueJayBody (some blueJayJson)
        = some ⟨"Blue Jay", some (mkRat 87 100), none, some (mkRat 1 20), none⟩
    ∧ (getCommonality defaultSettings (some (mkRat 1 20))).label = "Epic"
    ∧ (∀ (payloadKey body : String) (parsed : Option JsonVal),
        jsTrim body = "" → parsePayload payloadKey body parsed = none)
    ∧ (∀ (payloadKey body : String), jsTrim body ≠ "" →
        parsePayload payloadKey body none
          = some ⟨jsTrim body, none, none, none, none⟩) := by
  refine ⟨by decide, by decide, ?_, ?_⟩
  · intro payloadKey body parsed h
    simp [parsePayload, h]
  · intro payloadKey body h
    by_cases hk : payloadKey = "" <;> simp [parsePayload, h, hk]

theorem normalizer_three_shapes_witness :
    parsePayload "CommonName" "   " none = none
    ∧ parsePayload "CommonName" " American Robin " none
        = some ⟨jsTrim " American Robin ", none, none, none, none⟩ :=
  ⟨normalizer_three_shapes.2.2.1 "CommonName" "   " none (by decide),
   normalizer_three_shapes.2.2.2 "CommonName" " American Robin " (by decide)⟩

theorem parsePayload_key_hit (payloadKey body : String) (json : JsonVal)
    (v : JsonVal) (hk : payloadKey ≠ "") (hb : jsTrim body ≠ "")
    (hv : getJsonPath json payloadKey = some v) (ht : truthy (some v) = true) :
    parsePayload payloadKey body (some json)
      = some ⟨jsToString v, extractConfidence json, extractImageUrl json,
          extractOccurrence json, extractDate json⟩ := by
  simp [parsePayload, hb, hk, hv, ht]

/-- C9: the numeric auxiliary extractors accept numeric values and numeric
strings (parsed by the Number coercion) and yield null for every
non-numeric string, never failing the whole detection: a payload whose
confidence field is a non-numeric string still normalizes to a detection,
with a null confidence only. -/
theorem numeric_field_extraction :
    (∀ (q : ℚ) (fs : List (String × JsonVal)),
        extractConfidence (JsonVal.jobj (("Confidence", JsonVal.jnum q) :: fs))
            = some q
        ∧ extractOccurrence (JsonVal.jobj (("occurrence", JsonVal.jnum q) :: fs))
            = some q)
    ∧ (∀ (s : String) (q : ℚ) (fs : List (String × JsonVal)),
        jsStrToNum s = some q →
        extractConfidence (JsonVal.jobj (("Confidence", JsonVal.jstr s) :: fs))
            = some q
        ∧ extractOccurrence (JsonVal.jobj (("occurrence", JsonVal.jstr s) :: fs))
            = some q)
    ∧ (∀ (s : String) (fs : List (String × JsonVal)),
        jsStrToNum s = none →
        extractConfidence (JsonVal.jobj (("Confidence", JsonVal.jstr s) :: fs))
            = none
        ∧ extractOccurrence (JsonVal.jobj (("occurrence", JsonVal.jstr s) :: fs))
            = none)
    ∧ (∀ (s name body : String), jsStrToNum s = none → name ≠ "" →
        jsTrim body ≠ "" →
        parsePayload "CommonName" body
            (some (JsonVal.jobj [("CommonName", JsonVal.jstr name),
              ("Confidence", JsonVal.jstr s)]))
          = some ⟨name, none, none, none, none⟩) := by
  refine ⟨?_, ?_, ?_, ?_⟩
  · intro q fs
    constructor <;>
      simp [extractConfidence, extractOccurrence, jsProp, lookupField, jsNullish,
        extractNumField, jsIsObject]
  · intro s q fs h
    constructor <;>
      simp [extractConfidence, extractOccurrence, jsProp, lookupField, jsNullish,
        extractNumField, jsIsObject, h]
  · intro s fs h
    constructor <;>
      simp [extractConfidence, extractOccurrence, jsProp, lookupField, jsNullish,
        extractNumField, jsIsObject, h]
  · intro s name body hs hname hb
    have hpath : getJsonPath (JsonVal.jobj [("CommonName", JsonVal.jstr name),
        ("Confidence", JsonVal.jstr s)]) "CommonName" = some (JsonVal.jstr name) := by
      have hparts : ((splitPath "CommonName").map jsTrim).filter (fun p => p != "")
          = ["CommonName"] := by decide
      simp [getJsonPath, hparts, jsPropO, jsProp, lookupField]
    have ht : truthy (some (JsonVal.jstr name)) = true := by
      simp [truthy, hname]
    rw [parsePayload_key_hit "CommonName" body _ (JsonVal.jstr name) (by decide) hb
      hpath ht]
    simp [jsToString, extractConfidence, extractOccurrence, extractImageUrl,
      extractDate, jsProp, lookupField, jsNullish, jsAnd, jsOr, jsPropO, truthy,
      extractNumField, jsIsObject, hs]

theorem numeric_field_extraction_witness :
    extractConfidence (JsonVal.jobj [("Confidence", JsonVal.jnum (mkRat 87 100))])
        = some (mkRat 87 100)
    ∧ extractConfidence (JsonVal.jobj [("Confidence", JsonVal.jstr "0.87")])
        = some (mkRat 87 100)
    ∧ extractOccurrence (JsonVal.jobj [("occurrence", JsonVal.jstr "oops")]) = none
    ∧ parsePayload "CommonName" "x"
        (some (JsonVal.jobj [("CommonName", JsonVal.jstr "Blue Jay"),
          ("Confidence", JsonVal.jstr "oops")]))
        = some ⟨"Blue Jay", none, none, none, none⟩ :=
  ⟨(numeric_field_extraction.1 (mkRat 87 100) []).1,
   (numeric_field_extraction.2.1 "0.87" (mkRat 87 100) [] (by decide)).1,
   (numeric_field_extraction.2.2.1 "oops" [] (by decide)).2,
   numeric_field_extraction.2.2.2 "oops" "Blue Jay" "x" (by decide) (by decide)
     (by decide)⟩

theorem rolling_counter_closed_window_witness :
    getDetectionsLastHour 3600005 [0, 10, 3600000]
      = [(0 : Int), 10, 3600000].countP
          (fun t => decide (3600005 - 3600000 ≤ t ∧ t ≤ 3600005)) :=
  rolling_counter_closed_window 3600005 [0, 10, 3600000] (by decide) (by decide)
